import Mathlib

/-!
Verification development for the Nexus sales-intake application
(role-based CRM: sellers submit customer records, managers review them,
admins configure role permissions).

The definitions below are a shallow embedding of the TypeScript source:

* `SaleStatus`, `StatusHistoryEntry`, `Sale`, `CustomerData` mirror the
  record types of `types.ts` as they are used by the pages.
* `handleUpdateStatus` embeds `ManagerDashboard.tsx` (the function of the
  same name; the localStorage variant of the manager dashboard has the
  identical decision logic).
* `handleCreateSale`, `autosaveEffect`, `handleDeleteDraft` embed the
  corresponding parts of `SellerDashboard.tsx`.
* `initPermissions`, `updateRolePermissions`, `hasPermission` embed the
  permission handling of the application root component.
* `loadAllSalesAlerts` embeds the regression-alert pass of the
  localStorage manager dashboard's `loadAllSales`.

Timestamps are carried as opaque strings (`new Date().toISOString()` is
passed in as a `now` parameter), fresh store-generated ids as a `freshId`
parameter, and JavaScript `null`/`undefined` as `Option`.
-/

/-- `SaleStatus` enumeration from `types.ts`. -/
inductive SaleStatus
  | DRAFT
  | IN_PROGRESS
  | ANALYZED
  | FINISHED
deriving DecidableEq, Repr

/-- `AppPermission` enumeration from `types.ts`. -/
inductive AppPermission
  | VIEW_OWN_SALES
  | VIEW_ALL_SALES
  | CREATE_SALES
  | APPROVE_SALES
  | VIEW_DASHBOARD
  | ACCESS_ADMIN_PANEL
deriving DecidableEq, Repr

/-- `UserRole` enumeration from `types.ts`. -/
inductive UserRole
  | ADMIN
  | MANAGER
  | SELLER
deriving DecidableEq, Repr

/-- `StatusHistoryEntry` record: status, actor name, timestamp, optional
regression reason. -/
structure StatusHistoryEntry where
  status : SaleStatus
  updatedBy : String
  updatedAt : String
  reason : Option String
deriving DecidableEq, Repr

/-- The intake-form fields of `CustomerData` that the embedded operations
consult (name and document for the autosave guard; the remaining fields are
carried opaquely by the operations and are not inspected). -/
structure CustomerData where
  nome : String
  cpf : String
deriving DecidableEq, Repr

/-- `Sale` record from `types.ts`. -/
structure Sale where
  id : String
  sellerId : String
  sellerName : String
  customerData : CustomerData
  status : SaleStatus
  statusHistory : List StatusHistoryEntry
  createdAt : String
  returnReason : Option String
deriving DecidableEq, Repr

/-- The regression predicate of `handleUpdateStatus`
(`ManagerDashboard.tsx` line 61): current status is ANALYZED or FINISHED
and the target is IN_PROGRESS. -/
def isRegression (cur target : SaleStatus) : Bool :=
  (cur == SaleStatus.ANALYZED || cur == SaleStatus.FINISHED)
    && target == SaleStatus.IN_PROGRESS

/-- Both-ends whitespace removal on the character list, embedding
JavaScript's `String.prototype.trim`. -/
def trimChars (cs : List Char) : List Char :=
  ((cs.dropWhile Char.isWhitespace).reverse.dropWhile Char.isWhitespace).reverse

/-- `reason.trim()`. -/
def jsTrim (s : String) : String := ⟨trimChars s.data⟩

/-- `editingSaleId?.startsWith('TMP_')`: the check distinguishing a
temporary client-side id from a store id, embedded as a character-list
test. -/
def startsWithTMP (s : String) : Bool :=
  "TMP_".data.isPrefixOf s.data

/-- The justification guard of `handleUpdateStatus` (line 63):
`!reason || reason.trim().length < 5`. `none` models an omitted argument;
the empty string is falsy in JavaScript and also trims to length 0, so both
paths refuse it. -/
def reasonTooShort (reason : Option String) : Bool :=
  match reason with
  | none => true
  | some r => r == "" || (jsTrim r).length < 5

/-- `currentUser?.name || 'Sistema'` (line 70): the actor name recorded in
a history entry, falling back to `"Sistema"` when there is no session user
or the stored name is empty. -/
def updatedByName (currentUserName : Option String) : String :=
  match currentUserName with
  | some n => if n == "" then "Sistema" else n
  | none => "Sistema"

/-- Outcome of a manager status-change attempt. `permissionDenied`,
`saleNotFound` and `validationError` are the three early `return` paths of
`handleUpdateStatus`; `updated` carries the sale written to the store. -/
inductive UpdateOutcome
  | permissionDenied
  | saleNotFound
  | validationError
  | updated (s : Sale)
deriving DecidableEq, Repr

/-- `handleUpdateStatus` of `ManagerDashboard.tsx` (lines 52–94), embedded
as a function from the manager's cached sale list and the backing store to
the new store and the outcome.  The store write
(`supabase.from('sales').update(updates).eq('id', id)`) replaces the
status, return-reason and history columns of every row whose id matches;
each refusal path returns before any write, leaving the store unchanged. -/
def handleUpdateStatus (hasApprove : Bool) (sales store : List Sale)
    (id : String) (newStatus : SaleStatus) (reason : Option String)
    (currentUserName : Option String) (now : String) :
    List Sale × UpdateOutcome :=
  if !hasApprove then (store, UpdateOutcome.permissionDenied)
  else
    match sales.find? (fun s => s.id == id) with
    | none => (store, UpdateOutcome.saleNotFound)
    | some saleToUpdate =>
      let isReg := isRegression saleToUpdate.status newStatus
      if isReg && reasonTooShort reason then
        (store, UpdateOutcome.validationError)
      else
        let newHistoryEntry : StatusHistoryEntry :=
          { status := newStatus
            updatedBy := updatedByName currentUserName
            updatedAt := now
            reason := if isReg then reason else none }
        let updatedSale : Sale :=
          { saleToUpdate with
            status := newStatus
            returnReason := if isReg then reason else saleToUpdate.returnReason
            statusHistory := saleToUpdate.statusHistory ++ [newHistoryEntry] }
        (store.map (fun s => if s.id == id then
            { s with
              status := updatedSale.status
              returnReason := updatedSale.returnReason
              statusHistory := updatedSale.statusHistory }
          else s),
         UpdateOutcome.updated updatedSale)

/-! ## Permission registry (application root component) -/

/-- The `RolePermissionsMap` object: a record keyed by role whose entries
may be missing (`undefined` in JavaScript), as produced by the
`permsData.reduce` in `initApp`. -/
structure RolePermissionsMap where
  admin : Option (List AppPermission)
  manager : Option (List AppPermission)
  seller : Option (List AppPermission)
deriving DecidableEq, Repr

/-- `Object.values(AppPermission)`. -/
def allAppPermissions : List AppPermission :=
  [AppPermission.VIEW_OWN_SALES, AppPermission.VIEW_ALL_SALES,
   AppPermission.CREATE_SALES, AppPermission.APPROVE_SALES,
   AppPermission.VIEW_DASHBOARD, AppPermission.ACCESS_ADMIN_PANEL]

/-- `DEFAULT_PERMISSIONS` of the Supabase application root: admins hold
every permission, managers hold view-all/approve/dashboard, sellers hold
view-own/create/dashboard. -/
def DEFAULT_PERMISSIONS : RolePermissionsMap :=
  { admin := some allAppPermissions
    manager := some [AppPermission.VIEW_ALL_SALES, AppPermission.APPROVE_SALES,
                     AppPermission.VIEW_DASHBOARD]
    seller := some [AppPermission.VIEW_OWN_SALES, AppPermission.CREATE_SALES,
                    AppPermission.VIEW_DASHBOARD] }

/-- Property access `permissions[role]`. -/
def RolePermissionsMap.get (m : RolePermissionsMap) (r : UserRole) :
    Option (List AppPermission) :=
  match r with
  | UserRole.ADMIN => m.admin
  | UserRole.MANAGER => m.manager
  | UserRole.SELLER => m.seller

/-- Property assignment `acc[role] = perms` / spread `{...m, [role]: perms}`. -/
def RolePermissionsMap.set (m : RolePermissionsMap) (r : UserRole)
    (perms : List AppPermission) : RolePermissionsMap :=
  match r with
  | UserRole.ADMIN => { m with admin := some perms }
  | UserRole.MANAGER => { m with manager := some perms }
  | UserRole.SELLER => { m with seller := some perms }

/-- The empty object `{}` used as the `reduce` accumulator in `initApp`:
no role has an entry. -/
def emptyPermissionsMap : RolePermissionsMap :=
  { admin := none, manager := none, seller := none }

/-- The `permsData.reduce((acc, curr) => {acc[curr.role] = curr.permissions;
return acc}, {})` step of `initApp`: the fetched rows are folded into a
fresh map, so roles without a fetched row end with no entry. -/
def mapPermRows (rows : List (UserRole × List AppPermission)) :
    RolePermissionsMap :=
  rows.foldl (fun acc curr => acc.set curr.1 curr.2) emptyPermissionsMap

/-- `initApp`'s permission loading: if the external `permissions` table
returned at least one row, the state is replaced by the folded map of those
rows; only when it returned no rows at all are the built-in defaults
used. -/
def initPermissions (rows : List (UserRole × List AppPermission)) :
    RolePermissionsMap :=
  if rows.length > 0 then mapPermRows rows else DEFAULT_PERMISSIONS

/-- `updateRolePermissions`: `{ ...permissions, [role]: newPerms }` — the
single in-app mutator of the permission map. -/
def updateRolePermissions (m : RolePermissionsMap) (role : UserRole)
    (newPerms : List AppPermission) : RolePermissionsMap :=
  m.set role newPerms

/-- `(permissions[role] || [])`: the effective permission list consulted by
`hasPermission`, falling back to the empty list when the role has no
entry. -/
def effectivePerms (m : RolePermissionsMap) (r : UserRole) :
    List AppPermission :=
  (m.get r).getD []

/-- `hasPermission` of the application root: false without an
authenticated user, otherwise membership in the role's effective list. -/
def hasPermission (m : RolePermissionsMap) (authUserRole : Option UserRole)
    (p : AppPermission) : Bool :=
  match authUserRole with
  | none => false
  | some r => (effectivePerms m r).contains p

/-! ## Seller dashboard operations -/

/-- `isReadOnly` of `SellerDashboard.tsx`: editing an existing sale that is
FINISHED locks the form. -/
def computeIsReadOnly (sales : List Sale) (editingSaleId : Option String) :
    Bool :=
  match editingSaleId with
  | none => false
  | some eid =>
    match sales.find? (fun s => s.id == eid) with
    | some sale => sale.status == SaleStatus.FINISHED
    | none => false

/-- Supabase `upsert(payload, {onConflict: 'id'})` where the payload holds
every `sales` column: replaces the matching row wholesale, or inserts the
row when no id matches. -/
def upsertRow (store : List Sale) (row : Sale) : List Sale :=
  if store.any (fun s => s.id == row.id) then
    store.map (fun s => if s.id == row.id then row else s)
  else store ++ [row]

/-- Outcome of a seller form submission. `readOnly` and `invalidForm` are
the two early `return` paths of `handleCreateSale`; `submitted` carries the
row upserted into the store. -/
inductive SubmitOutcome
  | readOnly
  | invalidForm
  | submitted (s : Sale)
deriving DecidableEq, Repr

/-- `handleCreateSale` of `SellerDashboard.tsx` (lines 227–266).  The
`isFormValid` memo (field checks plus the external cpf-cnpj-validator
package) is abstracted as the boolean `formValid`, since the claims only
condition on its outcome.  The payload fixes `status = IN_PROGRESS`,
`return_reason = null`, appends one IN_PROGRESS entry to the existing
sale's history (or starts a fresh history), and keeps
`existingSale?.createdAt || now`.  `freshId` models the id the store
generates when the payload id is `null`. -/
def handleCreateSale (formValid : Bool) (sales store : List Sale)
    (editingSaleId : Option String) (userId userName : String)
    (formData : CustomerData) (now freshId : String) :
    List Sale × SubmitOutcome :=
  if computeIsReadOnly sales editingSaleId then (store, SubmitOutcome.readOnly)
  else if !formValid then (store, SubmitOutcome.invalidForm)
  else
    let existingSale : Option Sale := match editingSaleId with
      | some eid => sales.find? (fun s => s.id == eid)
      | none => none
    let newEntry : StatusHistoryEntry :=
      { status := SaleStatus.IN_PROGRESS, updatedBy := userName,
        updatedAt := now, reason := none }
    let row : Sale :=
      { id := match editingSaleId with
          | some eid => eid
          | none => freshId
        sellerId := userId
        sellerName := userName
        customerData := formData
        status := SaleStatus.IN_PROGRESS
        statusHistory :=
          (match existingSale with
           | some s => s.statusHistory
           | none => []) ++ [newEntry]
        createdAt :=
          match existingSale with
          | some s => if s.createdAt == "" then now else s.createdAt
          | none => now
        returnReason := none }
    (upsertRow store row, SubmitOutcome.submitted row)

/-- The autosave effect of `SellerDashboard.tsx` (lines 129–157), as the
write performed when the 5-second timer fires.  Returns `none` when the
save is skipped (modal closed, read-only form, or both `nome` and `cpf`
empty), otherwise the new store together with the row written.  The
payload has no `return_reason` column, so an upsert onto an existing row
keeps that row's stored return reason; its history is always the
single-entry `[{status: DRAFT, ...}]` list.  A `TMP_`-prefixed or absent
editing id yields a payload without id, inserting a fresh row under
`freshId`. -/
def autosaveEffect (showModal : Bool) (sales store : List Sale)
    (editingSaleId : Option String) (userId userName : String)
    (formData : CustomerData) (now freshId : String) :
    Option (List Sale × Sale) :=
  if !showModal || computeIsReadOnly sales editingSaleId then none
  else if formData.nome == "" && formData.cpf == "" then none
  else
    let payloadId : Option String :=
      match editingSaleId with
      | some eid => if startsWithTMP eid then none else some eid
      | none => none
    let hist : List StatusHistoryEntry :=
      [{ status := SaleStatus.DRAFT, updatedBy := userName,
         updatedAt := now, reason := none }]
    match payloadId with
    | some pid =>
      match store.find? (fun s => s.id == pid) with
      | some old =>
        let row : Sale :=
          { old with
            sellerId := userId, sellerName := userName,
            customerData := formData, status := SaleStatus.DRAFT,
            statusHistory := hist, createdAt := now }
        some (store.map (fun s => if s.id == pid then row else s), row)
      | none =>
        let row : Sale :=
          { id := pid, sellerId := userId, sellerName := userName,
            customerData := formData, status := SaleStatus.DRAFT,
            statusHistory := hist, createdAt := now, returnReason := none }
        some (store ++ [row], row)
    | none =>
      let row : Sale :=
        { id := freshId, sellerId := userId, sellerName := userName,
          customerData := formData, status := SaleStatus.DRAFT,
          statusHistory := hist, createdAt := now, returnReason := none }
      some (store ++ [row], row)

/-- `handleDeleteDraft` of `SellerDashboard.tsx` (lines 210–225): after the
`window.confirm` prompt (the `confirm` parameter), it issues
`supabase.from('sales').delete().eq('id', draftId)` with no check of the
sale's status or owner; declining the prompt leaves the store unchanged. -/
def handleDeleteDraft (confirm : Bool) (store : List Sale)
    (draftId : String) : List Sale :=
  if confirm then store.filter (fun s => !(s.id == draftId)) else store

/-- The render guard of the seller table row: the delete button is emitted
only when `isDraft`, i.e. the sale's status is DRAFT. -/
def deleteButtonShown (sale : Sale) : Bool :=
  sale.status == SaleStatus.DRAFT

/-- `loadData` of `SellerDashboard.tsx`: the seller's cached list holds
only the rows with `seller_id = user.id` (ordering by `created_at` is
irrelevant to the claims and kept as store order). -/
def sellerLoadData (store : List Sale) (userId : String) : List Sale :=
  store.filter (fun s => s.sellerId == userId)

/-! ## Regression alerts (localStorage manager dashboard) -/

/-- The regression test of `loadAllSales`: some history entry is ANALYZED
or FINISHED while the sale currently sits at IN_PROGRESS. -/
def saleShowsRegression (s : Sale) : Bool :=
  (s.statusHistory.any (fun h =>
      h.status == SaleStatus.ANALYZED || h.status == SaleStatus.FINISHED))
    && s.status == SaleStatus.IN_PROGRESS

/-- The alert pass of `loadAllSales` (localStorage manager dashboard):
walks the fetched sales carrying the `notifiedRegressions` seen-set (a set
of sale ids, modelled as a list with membership), fires a notification for
each regressing sale whose id is not yet in the set, and adds the id.  Ids
are only ever added, never removed.  Returns the grown seen-set and the
ids alerted during this poll. -/
def alertStep (acc : List String × List String) (sale : Sale) :
    List String × List String :=
  if saleShowsRegression sale then
    if acc.1.contains sale.id then acc
    else (acc.1 ++ [sale.id], acc.2 ++ [sale.id])
  else acc

/-- The alert pass of one `loadAllSales` run, folding `alertStep` over the
fetched sales starting from the current seen-set and an empty alert
list. -/
def loadAllSalesAlerts (salesList : List Sale) (seen : List String) :
    List String × List String :=
  salesList.foldl alertStep (seen, [])

/-- One poll of a manager session: the seen-set threads through, the
alerts accumulate. -/
def sessionStep (acc : List String × List String) (poll : List Sale) :
    List String × List String :=
  let step := loadAllSalesAlerts poll acc.1
  (step.1, acc.2 ++ step.2)

/-- A whole manager session: the seen-set threads through successive polls
(`loadAllSales` runs on mount, on storage events and on a 5-second
interval); the alerts of every poll are collected. -/
def sessionAlerts (polls : List (List Sale)) (seen : List String) :
    List String × List String :=
  polls.foldl sessionStep (seen, [])

/-! ## Derived forms used to state properties -/

/-- The history of the sale being edited (`existingSale?.statusHistory`,
empty when no sale is being edited or the id is unknown). -/
def existingHistory (sales : List Sale) (editingSaleId : Option String) :
    List StatusHistoryEntry :=
  match editingSaleId with
  | some eid =>
    match sales.find? (fun s => s.id == eid) with
    | some s => s.statusHistory
    | none => []
  | none => []

/-- `existingSale?.createdAt || now`: the creation timestamp kept by a
submission. -/
def existingCreatedAt (sales : List Sale) (editingSaleId : Option String)
    (now : String) : String :=
  match editingSaleId with
  | some eid =>
    match sales.find? (fun s => s.id == eid) with
    | some s => if s.createdAt == "" then now else s.createdAt
    | none => now
  | none => now

/-- The id under which a submission is stored: the editing id when there
is one, otherwise the id generated by the store. -/
def submittedId (editingSaleId : Option String) (freshId : String) :
    String :=
  match editingSaleId with
  | some eid => eid
  | none => freshId

/-- The row `handleCreateSale` upserts, written with the helper
accessors. -/
def submittedRow (sales : List Sale) (editingSaleId : Option String)
    (userId userName : String) (formData : CustomerData)
    (now freshId : String) : Sale :=
  { id := submittedId editingSaleId freshId
    sellerId := userId
    sellerName := userName
    customerData := formData
    status := SaleStatus.IN_PROGRESS
    statusHistory := existingHistory sales editingSaleId ++
      [{ status := SaleStatus.IN_PROGRESS, updatedBy := userName,
         updatedAt := now, reason := none }]
    createdAt := existingCreatedAt sales editingSaleId now
    returnReason := none }

/-- The sale produced by a successful `handleUpdateStatus`. -/
def updatedSaleOf (old : Sale) (t : SaleStatus) (reason : Option String)
    (u : Option String) (now : String) : Sale :=
  { old with
    status := t
    returnReason := if isRegression old.status t then reason
      else old.returnReason
    statusHistory := old.statusHistory ++
      [{ status := t, updatedBy := updatedByName u, updatedAt := now,
         reason := if isRegression old.status t then reason else none }] }

/-! ## Inversion and rewriting lemmas -/

lemma handleUpdateStatus_noPerm (sales store : List Sale) (id : String)
    (t : SaleStatus) (reason : Option String) (u : Option String)
    (now : String) :
    handleUpdateStatus false sales store id t reason u now
      = (store, UpdateOutcome.permissionDenied) := rfl

lemma handleUpdateStatus_validationErr (sales store : List Sale)
    (id : String) (t : SaleStatus) (reason : Option String)
    (u : Option String) (now : String) (old : Sale)
    (hf : sales.find? (fun s => s.id == id) = some old)
    (hv : (isRegression old.status t && reasonTooShort reason) = true) :
    handleUpdateStatus true sales store id t reason u now
      = (store, UpdateOutcome.validationError) := by
  simp [handleUpdateStatus, hf, hv]

lemma handleUpdateStatus_success (sales store : List Sale) (id : String)
    (t : SaleStatus) (reason : Option String) (u : Option String)
    (now : String) (old : Sale)
    (hf : sales.find? (fun s => s.id == id) = some old)
    (hv : (isRegression old.status t && reasonTooShort reason) = false) :
    handleUpdateStatus true sales store id t reason u now
      = (store.map (fun s => if s.id == id then
            { s with
              status := (updatedSaleOf old t reason u now).status
              returnReason := (updatedSaleOf old t reason u now).returnReason
              statusHistory :=
                (updatedSaleOf old t reason u now).statusHistory }
          else s),
         UpdateOutcome.updated (updatedSaleOf old t reason u now)) := by
  simp [handleUpdateStatus, hf, hv, updatedSaleOf]

lemma handleUpdateStatus_updated_inv (hasApprove : Bool)
    (sales store : List Sale) (id : String) (t : SaleStatus)
    (reason : Option String) (u : Option String) (now : String)
    (store' : List Sale) (s' : Sale)
    (h : handleUpdateStatus hasApprove sales store id t reason u now
      = (store', UpdateOutcome.updated s')) :
    hasApprove = true ∧
    ∃ old, sales.find? (fun s => s.id == id) = some old ∧
      (isRegression old.status t && reasonTooShort reason) = false ∧
      s' = updatedSaleOf old t reason u now := by
  unfold handleUpdateStatus at h
  split at h
  · simp at h
  · next hA =>
    split at h
    · simp at h
    · next old hf =>
      dsimp only at h
      split at h
      · simp at h
      · next hv =>
        refine ⟨?_, old, hf, ?_, ?_⟩
        · cases hasApprove
          · exact absurd rfl hA
          · rfl
        · simpa using hv
        · have := congrArg Prod.snd h
          simp only [UpdateOutcome.updated.injEq] at this
          rw [← this]
          rfl

lemma handleUpdateStatus_store_or (hasApprove : Bool)
    (sales store : List Sale) (id : String) (t : SaleStatus)
    (reason : Option String) (u : Option String) (now : String) :
    (handleUpdateStatus hasApprove sales store id t reason u now).1 = store
    ∨ ∃ s', (handleUpdateStatus hasApprove sales store id t reason u now).2
        = UpdateOutcome.updated s' := by
  unfold handleUpdateStatus
  split
  · exact Or.inl rfl
  · split
    · exact Or.inl rfl
    · dsimp only
      split
      · exact Or.inl rfl
      · exact Or.inr ⟨_, rfl⟩

lemma handleCreateSale_eq (formValid : Bool) (sales store : List Sale)
    (eid : Option String) (uid uname : String) (form : CustomerData)
    (now fid : String) :
    handleCreateSale formValid sales store eid uid uname form now fid
      = if computeIsReadOnly sales eid then (store, SubmitOutcome.readOnly)
        else if !formValid then (store, SubmitOutcome.invalidForm)
        else (upsertRow store (submittedRow sales eid uid uname form now fid),
              SubmitOutcome.submitted
                (submittedRow sales eid uid uname form now fid)) := by
  unfold handleCreateSale submittedRow submittedId existingHistory
    existingCreatedAt
  cases eid with
  | none => rfl
  | some e =>
    cases hfind : sales.find? (fun s => s.id == e) with
    | none => simp [hfind]
    | some s => simp [hfind]

/-! ## Shared concrete fixtures -/

/-- A customer record used by the concrete instances below. -/
def sampleCustomer : CustomerData :=
  { nome := "Ana Silva", cpf := "12345678901" }

/-! ## Claims -/

/-- C5: for every sale currently in ANALYZED or FINISHED, a transition to
IN_PROGRESS whose reason is absent or shorter than 5 characters after
trimming always fails with the validation error and leaves the sale and
the store completely unchanged (no history entry, no status or
return-reason change, no store write). -/
theorem claim_C5 (sales store : List Sale) (id : String)
    (reason : Option String) (u : Option String) (now : String)
    (old : Sale)
    (hf : sales.find? (fun s => s.id == id) = some old)
    (hst : old.status = SaleStatus.ANALYZED ∨ old.status = SaleStatus.FINISHED)
    (hr : reason = none ∨ ∃ r, reason = some r ∧ (jsTrim r).length < 5) :
    handleUpdateStatus true sales store id SaleStatus.IN_PROGRESS reason u now
      = (store, UpdateOutcome.validationError) := by
  apply handleUpdateStatus_validationErr sales store id SaleStatus.IN_PROGRESS
    reason u now old hf
  have hreg : isRegression old.status SaleStatus.IN_PROGRESS = true := by
    rcases hst with h | h <;> simp [isRegression, h]
  have htoo : reasonTooShort reason = true := by
    rcases hr with h | ⟨r, hr1, hr2⟩
    · simp [reasonTooShort, h]
    · subst hr1
      simp only [reasonTooShort, Bool.or_eq_true, decide_eq_true_eq]
      exact Or.inr hr2
  simp [hreg, htoo]

/-- Concrete instance of C5: an ANALYZED sale returned with the 4-letter
reason "ruim" is refused and the store is untouched. -/
def w5sale : Sale :=
  { id := "s5", sellerId := "u3", sellerName := "Ana Vendedora",
    customerData := sampleCustomer,
    status := SaleStatus.ANALYZED,
    statusHistory :=
      [{ status := SaleStatus.IN_PROGRESS, updatedBy := "Ana Vendedora",
         updatedAt := "t0", reason := none },
       { status := SaleStatus.ANALYZED, updatedBy := "Carlos Gerente",
         updatedAt := "t1", reason := none }],
    createdAt := "t0", returnReason := none }

/-- Witness for C5 at the concrete sale `w5sale`. -/
theorem claim_C5_witness :
    handleUpdateStatus true [w5sale] [w5sale] "s5" SaleStatus.IN_PROGRESS
      (some "ruim") (some "Carlos Gerente") "t2"
      = ([w5sale], UpdateOutcome.validationError) :=
  claim_C5 [w5sale] [w5sale] "s5" (some "ruim") (some "Carlos Gerente") "t2"
    w5sale (by rfl) (Or.inl rfl) (Or.inr ⟨"ruim", rfl, by decide⟩)

/-- C6: after every successful status transition — a manager status change
or a seller submission — the sale's history equals its previous history
with exactly one new entry appended (prior entries untouched), and that
last entry's status equals the sale's new current status. -/
theorem claim_C6 :
    (∀ (hasApprove : Bool) (sales store : List Sale) (id : String)
       (t : SaleStatus) (reason : Option String) (u : Option String)
       (now : String) (store' : List Sale) (s' old : Sale),
       sales.find? (fun s => s.id == id) = some old →
       handleUpdateStatus hasApprove sales store id t reason u now
         = (store', UpdateOutcome.updated s') →
       s'.status = t ∧
       s'.statusHistory = old.statusHistory ++
         [{ status := t, updatedBy := updatedByName u, updatedAt := now,
            reason := if isRegression old.status t then reason else none }]) ∧
    (∀ (formValid : Bool) (sales store : List Sale) (eid : Option String)
       (uid uname : String) (form : CustomerData) (now fid : String)
       (store' : List Sale) (s' : Sale),
       handleCreateSale formValid sales store eid uid uname form now fid
         = (store', SubmitOutcome.submitted s') →
       s'.status = SaleStatus.IN_PROGRESS ∧
       s'.statusHistory = existingHistory sales eid ++
         [{ status := SaleStatus.IN_PROGRESS, updatedBy := uname,
            updatedAt := now, reason := none }]) := by
  constructor
  · intro hasApprove sales store id t reason u now store' s' old hf h
    obtain ⟨hA, old', hf', hv, hs⟩ :=
      handleUpdateStatus_updated_inv hasApprove sales store id t reason u now
        store' s' h
    rw [hf] at hf'
    cases hf'
    subst hs
    exact ⟨rfl, rfl⟩
  · intro formValid sales store eid uid uname form now fid store' s' h
    rw [handleCreateSale_eq] at h
    split at h
    · simp at h
    · split at h
      · simp at h
      · have hs := congrArg Prod.snd h
        simp only [SubmitOutcome.submitted.injEq] at hs
        rw [← hs]
        exact ⟨rfl, rfl⟩

/-- Concrete fixture for the C6 witness: an IN_PROGRESS sale approved to
ANALYZED. -/
def w6sale : Sale :=
  { id := "s6", sellerId := "u3", sellerName := "Ana Vendedora",
    customerData := sampleCustomer,
    status := SaleStatus.IN_PROGRESS,
    statusHistory :=
      [{ status := SaleStatus.IN_PROGRESS, updatedBy := "Ana Vendedora",
         updatedAt := "t0", reason := none }],
    createdAt := "t0", returnReason := none }

/-- The sale after the C6 witness transition. -/
def w6after : Sale :=
  { w6sale with
    status := SaleStatus.ANALYZED,
    statusHistory := w6sale.statusHistory ++
      [{ status := SaleStatus.ANALYZED, updatedBy := "Carlos Gerente",
         updatedAt := "t2", reason := none }] }

/-- Witness for C6 at the concrete sale `w6sale`. -/
theorem claim_C6_witness :
    w6after.status = SaleStatus.ANALYZED ∧
    w6after.statusHistory = w6sale.statusHistory ++
      [{ status := SaleStatus.ANALYZED,
         updatedBy := updatedByName (some "Carlos Gerente"),
         updatedAt := "t2",
         reason := if isRegression w6sale.status SaleStatus.ANALYZED
           then none else none }] :=
  claim_C6.1 true [w6sale] [w6sale] "s6" SaleStatus.ANALYZED none
    (some "Carlos Gerente") "t2" [w6after] w6after w6sale (by rfl) (by rfl)

/-- C8: every autosave write of a draft stores status DRAFT together with
a history containing exactly one DRAFT entry, regardless of how long the
row's prior history was — a draft row's history is reset on each autosave,
never appended to. -/
theorem claim_C8 (showModal : Bool) (sales store : List Sale)
    (eid : Option String) (uid uname : String) (form : CustomerData)
    (now fid : String) (store' : List Sale) (row : Sale)
    (h : autosaveEffect showModal sales store eid uid uname form now fid
      = some (store', row)) :
    row.status = SaleStatus.DRAFT ∧
    row.statusHistory =
      [{ status := SaleStatus.DRAFT, updatedBy := uname, updatedAt := now,
         reason := none }] ∧
    row.statusHistory.length = 1 := by
  unfold autosaveEffect at h
  split at h
  · simp at h
  · split at h
    · simp at h
    · dsimp only at h
      split at h
      · split at h <;>
        · have h2 := Option.some.inj h
          rw [Prod.mk.injEq] at h2
          obtain ⟨-, h2⟩ := h2
          subst h2
          exact ⟨rfl, rfl, rfl⟩
      · have h2 := Option.some.inj h
        rw [Prod.mk.injEq] at h2
        obtain ⟨-, h2⟩ := h2
        subst h2
        exact ⟨rfl, rfl, rfl⟩

/-- Concrete fixture for the C8 witness: an IN_PROGRESS sale with a long
history whose id is being edited while the autosave timer fires. -/
def w8sale : Sale :=
  { id := "s8", sellerId := "u3", sellerName := "Ana Vendedora",
    customerData := sampleCustomer,
    status := SaleStatus.IN_PROGRESS,
    statusHistory :=
      [{ status := SaleStatus.DRAFT, updatedBy := "Ana Vendedora",
         updatedAt := "t0", reason := none },
       { status := SaleStatus.IN_PROGRESS, updatedBy := "Ana Vendedora",
         updatedAt := "t1", reason := none },
       { status := SaleStatus.ANALYZED, updatedBy := "Carlos Gerente",
         updatedAt := "t2", reason := none }],
    createdAt := "t0", returnReason := none }

/-- The row the C8 witness autosave writes over `w8sale`. -/
def w8row : Sale :=
  { w8sale with
    status := SaleStatus.DRAFT,
    statusHistory :=
      [{ status := SaleStatus.DRAFT, updatedBy := "Ana Vendedora",
         updatedAt := "t3", reason := none }],
    createdAt := "t3" }

/-- Witness for C8: the autosave over a three-entry history writes the
single-entry DRAFT history. -/
theorem claim_C8_witness :
    w8row.status = SaleStatus.DRAFT ∧
    w8row.statusHistory =
      [{ status := SaleStatus.DRAFT, updatedBy := "Ana Vendedora",
         updatedAt := "t3", reason := none }] ∧
    w8row.statusHistory.length = 1 :=
  claim_C8 true [w8sale] [w8sale] (some "s8") "u3" "Ana Vendedora"
    sampleCustomer "t3" "fresh9" [w8row] w8row (by rfl)

/-- C10: submitting an existing sale with a valid form persists a record
with status IN_PROGRESS, a cleared return reason (`return_reason = null`),
the prior history with exactly one IN_PROGRESS entry appended, and the
original `createdAt`; moreover this resubmission path is the only
operation that clears a previously set return reason — a manager status
change never turns a set return reason into an absent one, and an
autosave over an existing row keeps the row's stored return reason. -/
theorem claim_C10 :
    (∀ (sales store : List Sale) (eid : String) (uid uname : String)
       (form : CustomerData) (now fid : String) (old : Sale),
       sales.find? (fun s => s.id == eid) = some old →
       old.status ≠ SaleStatus.FINISHED →
       old.createdAt ≠ "" →
       handleCreateSale true sales store (some eid) uid uname form now fid
         = (upsertRow store
             (submittedRow sales (some eid) uid uname form now fid),
            SubmitOutcome.submitted
              (submittedRow sales (some eid) uid uname form now fid)) ∧
       (submittedRow sales (some eid) uid uname form now fid).status
         = SaleStatus.IN_PROGRESS ∧
       (submittedRow sales (some eid) uid uname form now fid).returnReason
         = none ∧
       (submittedRow sales (some eid) uid uname form now fid).statusHistory
         = old.statusHistory ++
           [{ status := SaleStatus.IN_PROGRESS, updatedBy := uname,
              updatedAt := now, reason := none }] ∧
       (submittedRow sales (some eid) uid uname form now fid).createdAt
         = old.createdAt) ∧
    (∀ (hasApprove : Bool) (sales store : List Sale) (id : String)
       (t : SaleStatus) (reason : Option String) (u : Option String)
       (now : String) (store' : List Sale) (s' old : Sale) (r0 : String),
       sales.find? (fun s => s.id == id) = some old →
       old.returnReason = some r0 →
       handleUpdateStatus hasApprove sales store id t reason u now
         = (store', UpdateOutcome.updated s') →
       s'.returnReason ≠ none) ∧
    (∀ (showModal : Bool) (sales store : List Sale) (pid : String)
       (uid uname : String) (form : CustomerData) (now fid : String)
       (store' : List Sale) (row old : Sale),
       store.find? (fun s => s.id == pid) = some old →
       startsWithTMP pid = false →
       autosaveEffect showModal sales store (some pid) uid uname form now fid
         = some (store', row) →
       row.returnReason = old.returnReason) := by
  refine ⟨?_, ?_, ?_⟩
  · intro sales store eid uid uname form now fid old hf hnf hca
    have hro : computeIsReadOnly sales (some eid) = false := by
      simp only [computeIsReadOnly, hf, beq_iff_eq]
      simpa using hnf
    refine ⟨?_, rfl, rfl, ?_, ?_⟩
    · rw [handleCreateSale_eq, hro]
      simp
    · simp [submittedRow, existingHistory, hf]
    · simp only [submittedRow, existingCreatedAt, hf]
      rw [if_neg]
      simpa using hca
  · intro hasApprove sales store id t reason u now store' s' old r0 hf hrr h
    obtain ⟨hA, old', hf', hv, hs⟩ :=
      handleUpdateStatus_updated_inv hasApprove sales store id t reason u now
        store' s' h
    rw [hf] at hf'
    cases hf'
    subst hs
    simp only [updatedSaleOf]
    by_cases hreg : isRegression old.status t = true
    · simp only [hreg, if_true]
      rw [hreg] at hv
      simp only [Bool.true_and] at hv
      cases reason with
      | none => simp [reasonTooShort] at hv
      | some r => simp
    · simp only [Bool.not_eq_true] at hreg
      simp [hreg, hrr]
  · intro showModal sales store pid uid uname form now fid store' row old
      hf hstart h
    unfold autosaveEffect at h
    split at h
    · simp at h
    · split at h
      · simp at h
      · dsimp only at h
        rw [hstart] at h
        simp only [Bool.false_eq_true, if_false, hf] at h
        have h2 := Option.some.inj h
        rw [Prod.mk.injEq] at h2
        obtain ⟨-, h2⟩ := h2
        subst h2
        rfl

/-- Concrete fixture for the C10 witness: an IN_PROGRESS sale returned by
the manager with a set return reason, about to be corrected and
resubmitted by its seller. -/
def w10old : Sale :=
  { id := "s10", sellerId := "u3", sellerName := "Ana Vendedora",
    customerData := sampleCustomer,
    status := SaleStatus.IN_PROGRESS,
    statusHistory :=
      [{ status := SaleStatus.IN_PROGRESS, updatedBy := "Ana Vendedora",
         updatedAt := "t0", reason := none },
       { status := SaleStatus.ANALYZED, updatedBy := "Carlos Gerente",
         updatedAt := "t1", reason := none },
       { status := SaleStatus.IN_PROGRESS, updatedBy := "Carlos Gerente",
         updatedAt := "t2", reason := some "corrigir cpf" }],
    createdAt := "t0", returnReason := some "corrigir cpf" }

/-- The sale after the C10 witness manager transition to ANALYZED (the
return reason is carried over, not cleared). -/
def w10after : Sale :=
  { w10old with
    status := SaleStatus.ANALYZED,
    statusHistory := w10old.statusHistory ++
      [{ status := SaleStatus.ANALYZED, updatedBy := "Carlos Gerente",
         updatedAt := "t3", reason := none }] }

/-- The row the C10 witness autosave writes over `w10old` (status reset
to DRAFT, stored return reason kept). -/
def w10draft : Sale :=
  { w10old with
    status := SaleStatus.DRAFT,
    statusHistory :=
      [{ status := SaleStatus.DRAFT, updatedBy := "Ana Vendedora",
         updatedAt := "t4", reason := none }],
    createdAt := "t4" }

/-- Witness for C10 at the concrete sale `w10old`: the resubmission
payload, the manager transition that preserves the set return reason, and
the autosave that keeps the stored return reason. -/
theorem claim_C10_witness :
    (handleCreateSale true [w10old] [w10old] (some "s10") "u3"
        "Ana Vendedora" sampleCustomer "t5" "f10"
      = (upsertRow [w10old]
          (submittedRow [w10old] (some "s10") "u3" "Ana Vendedora"
            sampleCustomer "t5" "f10"),
         SubmitOutcome.submitted
           (submittedRow [w10old] (some "s10") "u3" "Ana Vendedora"
             sampleCustomer "t5" "f10")) ∧
     (submittedRow [w10old] (some "s10") "u3" "Ana Vendedora" sampleCustomer
       "t5" "f10").status = SaleStatus.IN_PROGRESS ∧
     (submittedRow [w10old] (some "s10") "u3" "Ana Vendedora" sampleCustomer
       "t5" "f10").returnReason = none ∧
     (submittedRow [w10old] (some "s10") "u3" "Ana Vendedora" sampleCustomer
       "t5" "f10").statusHistory = w10old.statusHistory ++
         [{ status := SaleStatus.IN_PROGRESS, updatedBy := "Ana Vendedora",
            updatedAt := "t5", reason := none }] ∧
     (submittedRow [w10old] (some "s10") "u3" "Ana Vendedora" sampleCustomer
       "t5" "f10").createdAt = w10old.createdAt) ∧
    w10after.returnReason ≠ none ∧
    w10draft.returnReason = w10old.returnReason :=
  ⟨claim_C10.1 [w10old] [w10old] "s10" "u3" "Ana Vendedora" sampleCustomer
      "t5" "f10" w10old (by rfl) (by decide) (by decide),
   claim_C10.2.1 true [w10old] [w10old] "s10" SaleStatus.ANALYZED none
      (some "Carlos Gerente") "t3" [w10after] w10after w10old "corrigir cpf"
      (by rfl) (by rfl) (by rfl),
   claim_C10.2.2 true [w10old] [w10old] "s10" "u3" "Ana Vendedora"
      sampleCustomer "t4" "f10" [w10draft] w10draft w10old (by rfl) (by rfl)
      (by rfl)⟩

/-- Concrete fixture refuting C1: an IN_PROGRESS sale whose most recent
transition was a regression, so its return reason is set. -/
def c1sale : Sale :=
  { id := "s1", sellerId := "u3", sellerName := "Ana Vendedora",
    customerData := sampleCustomer,
    status := SaleStatus.IN_PROGRESS,
    statusHistory :=
      [{ status := SaleStatus.IN_PROGRESS, updatedBy := "Ana Vendedora",
         updatedAt := "t0", reason := none },
       { status := SaleStatus.ANALYZED, updatedBy := "Carlos Gerente",
         updatedAt := "t1", reason := none },
       { status := SaleStatus.IN_PROGRESS, updatedBy := "Carlos Gerente",
         updatedAt := "t2", reason := some "corrigir cpf" }],
    createdAt := "t0", returnReason := some "corrigir cpf" }

/-- `c1sale` after the manager moves it to ANALYZED: the return reason is
still set. -/
def c1after : Sale :=
  { c1sale with
    status := SaleStatus.ANALYZED,
    statusHistory := c1sale.statusHistory ++
      [{ status := SaleStatus.ANALYZED, updatedBy := "Carlos Gerente",
         updatedAt := "t3", reason := none }] }

/-- Counterexample to C1: a successful non-regression transition (to
ANALYZED) leaves `returnReason` set to the previous regression's reason
instead of clearing it, so after this transition `returnReason` is set
although the most recent applied transition was not a regression. -/
theorem claim_C1_counterexample :
    handleUpdateStatus true [c1sale] [c1sale] "s1" SaleStatus.ANALYZED none
      (some "Carlos Gerente") "t3" = ([c1after], UpdateOutcome.updated c1after)
    ∧ isRegression c1sale.status SaleStatus.ANALYZED = false
    ∧ c1after.returnReason = some "corrigir cpf" :=
  ⟨rfl, rfl, rfl⟩

/-- C1 as amended: a successful regression transition sets `returnReason`
to the supplied reason, but a successful non-regression transition
preserves the previous `returnReason` unchanged rather than clearing it;
the reason is cleared only by the seller resubmission path, which writes
`return_reason = null`. -/
theorem claim_C1_amended :
    (∀ (hasApprove : Bool) (sales store : List Sale) (id : String)
       (t : SaleStatus) (reason : Option String) (u : Option String)
       (now : String) (store' : List Sale) (s' old : Sale),
       sales.find? (fun s => s.id == id) = some old →
       handleUpdateStatus hasApprove sales store id t reason u now
         = (store', UpdateOutcome.updated s') →
       s'.returnReason = if isRegression old.status t then reason
         else old.returnReason) ∧
    (∀ (formValid : Bool) (sales store : List Sale) (eid : Option String)
       (uid uname : String) (form : CustomerData) (now fid : String)
       (store' : List Sale) (s' : Sale),
       handleCreateSale formValid sales store eid uid uname form now fid
         = (store', SubmitOutcome.submitted s') →
       s'.returnReason = none) := by
  constructor
  · intro hasApprove sales store id t reason u now store' s' old hf h
    obtain ⟨hA, old', hf', hv, hs⟩ :=
      handleUpdateStatus_updated_inv hasApprove sales store id t reason u now
        store' s' h
    rw [hf] at hf'
    cases hf'
    subst hs
    rfl
  · intro formValid sales store eid uid uname form now fid store' s' h
    rw [handleCreateSale_eq] at h
    split at h
    · simp at h
    · split at h
      · simp at h
      · have hs := congrArg Prod.snd h
        simp only [SubmitOutcome.submitted.injEq] at hs
        rw [← hs]
        rfl

/-- Concrete fixture for the amended C1 witness: a FINISHED sale being
returned with a valid justification. -/
def c1wsale : Sale :=
  { id := "s1b", sellerId := "u3", sellerName := "Ana Vendedora",
    customerData := sampleCustomer,
    status := SaleStatus.FINISHED,
    statusHistory :=
      [{ status := SaleStatus.IN_PROGRESS, updatedBy := "Ana Vendedora",
         updatedAt := "t0", reason := none },
       { status := SaleStatus.FINISHED, updatedBy := "Carlos Gerente",
         updatedAt := "t1", reason := none }],
    createdAt := "t0", returnReason := none }

/-- `c1wsale` after the witness regression transition. -/
def c1wafter : Sale :=
  { c1wsale with
    status := SaleStatus.IN_PROGRESS,
    returnReason := some "documento ilegivel",
    statusHistory := c1wsale.statusHistory ++
      [{ status := SaleStatus.IN_PROGRESS, updatedBy := "Carlos Gerente",
         updatedAt := "t2", reason := some "documento ilegivel" }] }

/-- Witness for the amended C1: the regression sets the return reason to
the supplied justification, and a fresh submission writes a null return
reason. -/
theorem claim_C1_amended_witness :
    c1wafter.returnReason
      = (if isRegression c1wsale.status SaleStatus.IN_PROGRESS
          then some "documento ilegivel" else c1wsale.returnReason) ∧
    (submittedRow ([] : List Sale) none "u3" "Ana Vendedora" sampleCustomer
      "t1" "f1").returnReason = none :=
  ⟨claim_C1_amended.1 true [c1wsale] [c1wsale] "s1b" SaleStatus.IN_PROGRESS
      (some "documento ilegivel") (some "Carlos Gerente") "t2" [c1wafter]
      c1wafter c1wsale (by rfl) (by rfl),
   claim_C1_amended.2 true [] [] none "u3" "Ana Vendedora" sampleCustomer
      "t1" "f1"
      (upsertRow []
        (submittedRow ([] : List Sale) none "u3" "Ana Vendedora"
          sampleCustomer "t1" "f1"))
      (submittedRow ([] : List Sale) none "u3" "Ana Vendedora" sampleCustomer
        "t1" "f1")
      (by rfl)⟩

/-- Concrete fixture refuting C3: an IN_PROGRESS sale that the manager
finishes directly, skipping ANALYZED. -/
def c3sale : Sale :=
  { id := "s3", sellerId := "u3", sellerName := "Ana Vendedora",
    customerData := sampleCustomer,
    status := SaleStatus.IN_PROGRESS,
    statusHistory :=
      [{ status := SaleStatus.IN_PROGRESS, updatedBy := "Ana Vendedora",
         updatedAt := "t0", reason := none }],
    createdAt := "t0", returnReason := none }

/-- `c3sale` after the direct IN_PROGRESS to FINISHED change. -/
def c3after : Sale :=
  { c3sale with
    status := SaleStatus.FINISHED,
    statusHistory := c3sale.statusHistory ++
      [{ status := SaleStatus.FINISHED, updatedBy := "Carlos Gerente",
         updatedAt := "t2", reason := none }] }

/-- Counterexample to C3: the edge IN_PROGRESS to FINISHED is outside the
nominal state graph, yet the status change succeeds and mutates the sale
and the store — there is no InvalidTransition refusal. -/
theorem claim_C3_counterexample :
    c3sale.status = SaleStatus.IN_PROGRESS ∧
    handleUpdateStatus true [c3sale] [c3sale] "s3" SaleStatus.FINISHED none
      (some "Carlos Gerente") "t2" = ([c3after], UpdateOutcome.updated c3after)
    ∧ c3after ≠ c3sale :=
  ⟨rfl, rfl, by decide⟩

/-- C3 as amended: `handleUpdateStatus` performs no edge-graph validation
and has no InvalidTransition error.  Its outcomes are exactly: missing
approve capability refuses with no store change; unknown sale id is a
silent no-op; a regression with an absent or too-short reason refuses with
no store change; in every other case the change is applied — for any
target status whatsoever, including edges outside the nominal graph. -/
theorem claim_C3_amended :
    (∀ (sales store : List Sale) (id : String) (t : SaleStatus)
       (reason : Option String) (u : Option String) (now : String)
       (old : Sale),
       sales.find? (fun s => s.id == id) = some old →
       (isRegression old.status t && reasonTooShort reason) = false →
       handleUpdateStatus true sales store id t reason u now
         = (store.map (fun s => if s.id == id then
              { s with
                status := (updatedSaleOf old t reason u now).status
                returnReason := (updatedSaleOf old t reason u now).returnReason
                statusHistory :=
                  (updatedSaleOf old t reason u now).statusHistory }
            else s),
            UpdateOutcome.updated (updatedSaleOf old t reason u now))) ∧
    (∀ (sales store : List Sale) (id : String) (t : SaleStatus)
       (reason : Option String) (u : Option String) (now : String),
       handleUpdateStatus false sales store id t reason u now
         = (store, UpdateOutcome.permissionDenied)) ∧
    (∀ (sales store : List Sale) (id : String) (t : SaleStatus)
       (reason : Option String) (u : Option String) (now : String),
       sales.find? (fun s => s.id == id) = none →
       handleUpdateStatus true sales store id t reason u now
         = (store, UpdateOutcome.saleNotFound)) ∧
    (∀ (sales store : List Sale) (id : String) (t : SaleStatus)
       (reason : Option String) (u : Option String) (now : String)
       (old : Sale),
       sales.find? (fun s => s.id == id) = some old →
       (isRegression old.status t && reasonTooShort reason) = true →
       handleUpdateStatus true sales store id t reason u now
         = (store, UpdateOutcome.validationError)) := by
  refine ⟨?_, ?_, ?_, ?_⟩
  · intro sales store id t reason u now old hf hv
    exact handleUpdateStatus_success sales store id t reason u now old hf hv
  · intro sales store id t reason u now
    exact handleUpdateStatus_noPerm sales store id t reason u now
  · intro sales store id t reason u now hf
    simp [handleUpdateStatus, hf]
  · intro sales store id t reason u now old hf hv
    exact handleUpdateStatus_validationErr sales store id t reason u now old
      hf hv

/-- An ANALYZED fixture for the validation-refusal instance of the C3
witness. -/
def c3bsale : Sale :=
  { id := "s3b", sellerId := "u3", sellerName := "Ana Vendedora",
    customerData := sampleCustomer,
    status := SaleStatus.ANALYZED,
    statusHistory :=
      [{ status := SaleStatus.IN_PROGRESS, updatedBy := "Ana Vendedora",
         updatedAt := "t0", reason := none },
       { status := SaleStatus.ANALYZED, updatedBy := "Carlos Gerente",
         updatedAt := "t1", reason := none }],
    createdAt := "t0", returnReason := none }

/-- Witness for the amended C3, exercising all four outcomes at concrete
inputs; in particular the out-of-graph edge IN_PROGRESS to FINISHED is
applied. -/
theorem claim_C3_amended_witness :
    handleUpdateStatus true [c3sale] [c3sale] "s3" SaleStatus.FINISHED none
      (some "Carlos Gerente") "t2"
      = ([c3sale].map (fun s => if s.id == "s3" then
          { s with
            status := (updatedSaleOf c3sale SaleStatus.FINISHED none
              (some "Carlos Gerente") "t2").status
            returnReason := (updatedSaleOf c3sale SaleStatus.FINISHED none
              (some "Carlos Gerente") "t2").returnReason
            statusHistory := (updatedSaleOf c3sale SaleStatus.FINISHED none
              (some "Carlos Gerente") "t2").statusHistory }
        else s),
        UpdateOutcome.updated (updatedSaleOf c3sale SaleStatus.FINISHED none
          (some "Carlos Gerente") "t2")) ∧
    handleUpdateStatus false [c3sale] [c3sale] "s3" SaleStatus.ANALYZED none
      (some "Carlos Gerente") "t2" = ([c3sale], UpdateOutcome.permissionDenied)
    ∧
    handleUpdateStatus true [] [] "nope" SaleStatus.ANALYZED none
      (some "Carlos Gerente") "t2" = ([], UpdateOutcome.saleNotFound) ∧
    handleUpdateStatus true [c3bsale] [c3bsale] "s3b" SaleStatus.IN_PROGRESS
      none (some "Carlos Gerente") "t2"
      = ([c3bsale], UpdateOutcome.validationError) :=
  ⟨claim_C3_amended.1 [c3sale] [c3sale] "s3" SaleStatus.FINISHED none
      (some "Carlos Gerente") "t2" c3sale (by rfl) (by rfl),
   claim_C3_amended.2.1 [c3sale] [c3sale] "s3" SaleStatus.ANALYZED none
      (some "Carlos Gerente") "t2",
   claim_C3_amended.2.2.1 [] [] "nope" SaleStatus.ANALYZED none
      (some "Carlos Gerente") "t2" (by rfl),
   claim_C3_amended.2.2.2 [c3bsale] [c3bsale] "s3b" SaleStatus.IN_PROGRESS
      none (some "Carlos Gerente") "t2" c3bsale (by rfl) (by rfl)⟩

/-- A permission map whose seller entry lacks the create capability, used
to refute C4. -/
def c4perms : RolePermissionsMap :=
  { admin := some allAppPermissions
    manager := some [AppPermission.VIEW_ALL_SALES, AppPermission.APPROVE_SALES,
                     AppPermission.VIEW_DASHBOARD]
    seller := some [AppPermission.VIEW_OWN_SALES, AppPermission.VIEW_DASHBOARD] }

/-- The row written by the C4 counterexample submission. -/
def c4row : Sale :=
  { id := "f4", sellerId := "u3", sellerName := "Ana Vendedora",
    customerData := sampleCustomer,
    status := SaleStatus.IN_PROGRESS,
    statusHistory :=
      [{ status := SaleStatus.IN_PROGRESS, updatedBy := "Ana Vendedora",
         updatedAt := "t1", reason := none }],
    createdAt := "t1", returnReason := none }

/-- Counterexample to C4: under a permission map in which the seller role
lacks the create capability, a seller submission with a valid form still
performs a store write — `handleCreateSale` consults no capability, so the
DRAFT to IN_PROGRESS edge is not permission-gated. -/
theorem claim_C4_counterexample :
    hasPermission c4perms (some UserRole.SELLER) AppPermission.CREATE_SALES
      = false ∧
    handleCreateSale true [] [] none "u3" "Ana Vendedora" sampleCustomer
      "t1" "f4" = ([c4row], SubmitOutcome.submitted c4row) ∧
    c4row.status = SaleStatus.IN_PROGRESS :=
  ⟨by decide, rfl, rfl⟩

/-- C4 as amended: the edges driven through `handleUpdateStatus` (into
ANALYZED or FINISHED, and the regression edge) do require the approve
capability and refuse with zero store writes without it; but the seller
submission (the DRAFT to IN_PROGRESS edge) checks no capability at all:
whatever the permission map says, a valid-form submission is written. -/
theorem claim_C4_amended :
    (∀ (m : RolePermissionsMap) (role : Option UserRole)
       (sales store : List Sale) (id : String) (t : SaleStatus)
       (reason : Option String) (u : Option String) (now : String),
       hasPermission m role AppPermission.APPROVE_SALES = false →
       handleUpdateStatus (hasPermission m role AppPermission.APPROVE_SALES)
         sales store id t reason u now
         = (store, UpdateOutcome.permissionDenied)) ∧
    (∀ (m : RolePermissionsMap) (role : Option UserRole)
       (sales store : List Sale) (uid uname : String) (form : CustomerData)
       (now fid : String),
       handleCreateSale true sales store none uid uname form now fid
         = (upsertRow store (submittedRow sales none uid uname form now fid),
            SubmitOutcome.submitted
              (submittedRow sales none uid uname form now fid))) := by
  constructor
  · intro m role sales store id t reason u now h
    rw [h]
    exact handleUpdateStatus_noPerm sales store id t reason u now
  · intro m role sales store uid uname form now fid
    rw [handleCreateSale_eq]
    rfl

/-- Witness for the amended C4: a seller without the approve capability is
refused by the manager path with no store change, while the same seller's
submission is written regardless of the permission map. -/
theorem claim_C4_amended_witness :
    handleUpdateStatus
      (hasPermission c4perms (some UserRole.SELLER)
        AppPermission.APPROVE_SALES)
      [c4row] [c4row] "f4" SaleStatus.ANALYZED none (some "Ana Vendedora")
      "t2" = ([c4row], UpdateOutcome.permissionDenied) ∧
    handleCreateSale true [] [] none "u3" "Ana Vendedora" sampleCustomer
      "t1" "f4"
      = (upsertRow []
          (submittedRow [] none "u3" "Ana Vendedora" sampleCustomer
            "t1" "f4"),
         SubmitOutcome.submitted
           (submittedRow [] none "u3" "Ana Vendedora" sampleCustomer
             "t1" "f4")) :=
  ⟨claim_C4_amended.1 c4perms (some UserRole.SELLER) [c4row] [c4row] "f4"
      SaleStatus.ANALYZED none (some "Ana Vendedora") "t2" (by decide),
   claim_C4_amended.2 c4perms (some UserRole.SELLER) [] [] "u3"
      "Ana Vendedora" sampleCustomer "t1" "f4"⟩

/-- Concrete fixture refuting C7: a FINISHED sale owned by seller "u3". -/
def c7sale : Sale :=
  { id := "s7", sellerId := "u3", sellerName := "Ana Vendedora",
    customerData := sampleCustomer,
    status := SaleStatus.FINISHED,
    statusHistory :=
      [{ status := SaleStatus.IN_PROGRESS, updatedBy := "Ana Vendedora",
         updatedAt := "t0", reason := none },
       { status := SaleStatus.FINISHED, updatedBy := "Carlos Gerente",
         updatedAt := "t1", reason := none }],
    createdAt := "t0", returnReason := none }

/-- Counterexample to C7: `handleDeleteDraft` deletes a FINISHED sale with
no error — deletion does not fail for a sale outside DRAFT, and no
PermissionDenied or InvalidState outcome exists anywhere in the
operation. -/
theorem claim_C7_counterexample :
    c7sale.status ≠ SaleStatus.DRAFT ∧
    handleDeleteDraft true [c7sale] "s7" = [] :=
  ⟨by decide, rfl⟩

/-- C7 as amended: the DRAFT-only, owner-only restrictions live solely in
the UI — the delete button is rendered only for rows with status DRAFT,
and the seller's table lists only the signed-in seller's own sales — while
`handleDeleteDraft` itself checks neither state nor ownership: once the
user confirms, it removes exactly the rows carrying the given id,
whatever their status or owner, and produces no error; declining the
confirm prompt leaves the store unchanged. -/
theorem claim_C7_amended :
    (∀ sale : Sale,
       deleteButtonShown sale = true ↔ sale.status = SaleStatus.DRAFT) ∧
    (∀ (store : List Sale) (uid : String) (s : Sale),
       s ∈ sellerLoadData store uid → s.sellerId = uid) ∧
    (∀ (store : List Sale) (idv : String) (s : Sale),
       s ∈ handleDeleteDraft true store idv ↔ s ∈ store ∧ ¬s.id = idv) ∧
    (∀ (store : List Sale) (idv : String),
       handleDeleteDraft false store idv = store) := by
  refine ⟨?_, ?_, ?_, ?_⟩
  · intro sale
    simp [deleteButtonShown]
  · intro store uid s hs
    simp only [sellerLoadData, List.mem_filter, beq_iff_eq] at hs
    exact hs.2
  · intro store idv s
    simp [handleDeleteDraft]
  · intro store idv
    rfl

/-- Witness for the amended C7 at the concrete FINISHED sale `c7sale`. -/
theorem claim_C7_amended_witness :
    (deleteButtonShown c7sale = true ↔ c7sale.status = SaleStatus.DRAFT) ∧
    c7sale.sellerId = "u3" ∧
    (c7sale ∈ handleDeleteDraft true [c7sale] "s7"
      ↔ c7sale ∈ [c7sale] ∧ ¬c7sale.id = "s7") ∧
    handleDeleteDraft false [c7sale] "s7" = [c7sale] :=
  ⟨claim_C7_amended.1 c7sale,
   claim_C7_amended.2.1 [c7sale] "u3" c7sale (by decide),
   claim_C7_amended.2.2.1 [c7sale] "s7" c7sale,
   claim_C7_amended.2.2.2 [c7sale] "s7"⟩

lemma RolePermissionsMap.set_get_ne (m : RolePermissionsMap)
    (role : UserRole) (perms : List AppPermission) (r : UserRole)
    (h : r ≠ role) :
    (m.set role perms).get r = m.get r := by
  cases r <;> cases role <;>
    simp_all [RolePermissionsMap.set, RolePermissionsMap.get]

lemma foldl_set_get_of_absent (r : UserRole) :
    ∀ (rows : List (UserRole × List AppPermission))
      (acc : RolePermissionsMap),
      (∀ p ∈ rows, p.1 ≠ r) →
      (rows.foldl (fun a c => a.set c.1 c.2) acc).get r = acc.get r := by
  intro rows
  induction rows with
  | nil => intro acc _; rfl
  | cons p rest ih =>
    intro acc h
    rw [List.foldl_cons]
    rw [ih (acc.set p.1 p.2) (fun q hq => h q (List.mem_cons_of_mem p hq))]
    exact RolePermissionsMap.set_get_ne acc p.1 p.2 r
      (fun he => h p (List.mem_cons_self p rest) he.symm)

/-- Counterexample to C2: after the external `permissions` table supplies
an entry for the manager role only, the seller role's effective permission
set is empty — not the built-in default — so the seller loses even
view-own-sales. -/
theorem claim_C2_counterexample :
    effectivePerms
      (initPermissions
        [(UserRole.MANAGER,
          [AppPermission.VIEW_ALL_SALES, AppPermission.APPROVE_SALES,
           AppPermission.VIEW_DASHBOARD])])
      UserRole.SELLER = [] ∧
    effectivePerms DEFAULT_PERMISSIONS UserRole.SELLER
      = [AppPermission.VIEW_OWN_SALES, AppPermission.CREATE_SALES,
         AppPermission.VIEW_DASHBOARD] ∧
    hasPermission
      (initPermissions
        [(UserRole.MANAGER,
          [AppPermission.VIEW_ALL_SALES, AppPermission.APPROVE_SALES,
           AppPermission.VIEW_DASHBOARD])])
      (some UserRole.SELLER) AppPermission.VIEW_OWN_SALES = false := by
  refine ⟨by decide, by decide, by decide⟩

/-- C2 as amended: the built-in defaults are used only when the external
configuration supplied no entries at all; when it supplied entries for
only some roles, every unconfigured role's effective permission set is
empty rather than its default.  The in-app mutator
`updateRolePermissions`, by contrast, does preserve the other roles'
entries. -/
theorem claim_C2_amended :
    initPermissions [] = DEFAULT_PERMISSIONS ∧
    (∀ (rows : List (UserRole × List AppPermission)) (r : UserRole),
       0 < rows.length →
       (∀ p ∈ rows, p.1 ≠ r) →
       effectivePerms (initPermissions rows) r = []) ∧
    (∀ (m : RolePermissionsMap) (role : UserRole)
       (perms : List AppPermission) (r : UserRole),
       r ≠ role →
       (updateRolePermissions m role perms).get r = m.get r) := by
  refine ⟨rfl, ?_, ?_⟩
  · intro rows r hlen habs
    unfold initPermissions
    rw [if_pos hlen]
    unfold effectivePerms mapPermRows
    rw [foldl_set_get_of_absent r rows emptyPermissionsMap habs]
    cases r <;> rfl
  · intro m role perms r h
    exact RolePermissionsMap.set_get_ne m role perms r h

/-- Witness for the amended C2: empty external config keeps the defaults;
a manager-only external config blanks the seller role; updating the
manager entry in-app leaves the seller entry intact. -/
theorem claim_C2_amended_witness :
    initPermissions [] = DEFAULT_PERMISSIONS ∧
    effectivePerms
      (initPermissions [(UserRole.MANAGER, [AppPermission.APPROVE_SALES])])
      UserRole.SELLER = [] ∧
    (updateRolePermissions DEFAULT_PERMISSIONS UserRole.MANAGER
      []).get UserRole.SELLER = DEFAULT_PERMISSIONS.get UserRole.SELLER :=
  ⟨claim_C2_amended.1,
   claim_C2_amended.2.1 [(UserRole.MANAGER, [AppPermission.APPROVE_SALES])]
      UserRole.SELLER (by decide) (by decide),
   claim_C2_amended.2.2 DEFAULT_PERMISSIONS UserRole.MANAGER []
      UserRole.SELLER (by decide)⟩

lemma alertStep_inv (x : String) (acc : List String × List String)
    (sale : Sale) :
    (alertStep acc sale).2.count x
        + (if x ∈ (alertStep acc sale).1 then 0 else 1)
      = acc.2.count x + (if x ∈ acc.1 then 0 else 1) := by
  unfold alertStep
  split
  · split
    · rfl
    · next hc =>
      have hnm : sale.id ∉ acc.1 := fun hm =>
        hc (List.elem_eq_true_of_mem hm)
      by_cases hx : x = sale.id
      · subst hx
        simp [List.count_append, hnm]
      · simp [List.count_append, List.count_singleton, hx,
          List.mem_append, Ne.symm hx]
  · rfl

lemma alertFold_inv (x : String) :
    ∀ (salesList : List Sale) (acc : List String × List String),
      (salesList.foldl alertStep acc).2.count x
          + (if x ∈ (salesList.foldl alertStep acc).1 then 0 else 1)
        = acc.2.count x + (if x ∈ acc.1 then 0 else 1) := by
  intro salesList
  induction salesList with
  | nil => intro acc; rfl
  | cons sale rest ih =>
    intro acc
    rw [List.foldl_cons, ih (alertStep acc sale), alertStep_inv]

lemma loadAllSalesAlerts_inv (x : String) (salesList : List Sale)
    (seen : List String) :
    (loadAllSalesAlerts salesList seen).2.count x
        + (if x ∈ (loadAllSalesAlerts salesList seen).1 then 0 else 1)
      = (if x ∈ seen then 0 else 1) := by
  unfold loadAllSalesAlerts
  rw [alertFold_inv]
  simp

lemma alertStep_seen_mono (x : String) (acc : List String × List String)
    (sale : Sale) (h : x ∈ acc.1) : x ∈ (alertStep acc sale).1 := by
  unfold alertStep
  split
  · split
    · exact h
    · exact List.mem_append_left _ h
  · exact h

lemma alertFold_seen_mono (x : String) :
    ∀ (salesList : List Sale) (acc : List String × List String),
      x ∈ acc.1 → x ∈ (salesList.foldl alertStep acc).1 := by
  intro salesList
  induction salesList with
  | nil => intro acc h; exact h
  | cons sale rest ih =>
    intro acc h
    rw [List.foldl_cons]
    exact ih (alertStep acc sale) (alertStep_seen_mono x acc sale h)

lemma sessionStep_inv (x : String) (acc : List String × List String)
    (poll : List Sale) :
    (sessionStep acc poll).2.count x
        + (if x ∈ (sessionStep acc poll).1 then 0 else 1)
      = acc.2.count x + (if x ∈ acc.1 then 0 else 1) := by
  unfold sessionStep
  dsimp only
  rw [List.count_append]
  have := loadAllSalesAlerts_inv x poll acc.1
  omega

lemma sessionFold_inv (x : String) :
    ∀ (polls : List (List Sale)) (acc : List String × List String),
      (polls.foldl sessionStep acc).2.count x
          + (if x ∈ (polls.foldl sessionStep acc).1 then 0 else 1)
        = acc.2.count x + (if x ∈ acc.1 then 0 else 1) := by
  intro polls
  induction polls with
  | nil => intro acc; rfl
  | cons poll rest ih =>
    intro acc
    rw [List.foldl_cons, ih (sessionStep acc poll), sessionStep_inv]

lemma sessionFold_seen_mono (x : String) :
    ∀ (polls : List (List Sale)) (acc : List String × List String),
      x ∈ acc.1 → x ∈ (polls.foldl sessionStep acc).1 := by
  intro polls
  induction polls with
  | nil => intro acc h; exact h
  | cons poll rest ih =>
    intro acc h
    rw [List.foldl_cons]
    exact ih (sessionStep acc poll)
      (alertFold_seen_mono x poll (acc.1, []) h)

/-- C9: within one manager session, each distinct sale id triggers at most
one regression alert: an id already in the seen-set never alerts again
over any sequence of subsequent polls — even if the sale regresses again
after a fresh approval cycle — and ids are only ever added to the
seen-set, never removed. -/
theorem claim_C9 :
    (∀ (polls : List (List Sale)) (x : String),
       (sessionAlerts polls []).2.count x ≤ 1) ∧
    (∀ (polls : List (List Sale)) (seen : List String) (x : String),
       x ∈ seen → x ∈ (sessionAlerts polls seen).1) ∧
    (∀ (polls : List (List Sale)) (seen : List String) (x : String),
       x ∈ seen → (sessionAlerts polls seen).2.count x = 0) := by
  refine ⟨?_, ?_, ?_⟩
  · intro polls x
    have h := sessionFold_inv x polls ([], [])
    unfold sessionAlerts
    simp only [List.count_nil, List.not_mem_nil, if_false] at h
    split at h <;> omega
  · intro polls seen x hx
    exact sessionFold_seen_mono x polls (seen, []) hx
  · intro polls seen x hx
    have h := sessionFold_inv x polls (seen, [])
    simp only [List.count_nil, hx, if_pos] at h
    unfold sessionAlerts
    omega

/-- A regressing sale (approved in its history, currently IN_PROGRESS)
used by the C9 witness. -/
def c9sale : Sale :=
  { id := "s9", sellerId := "u3", sellerName := "Ana Vendedora",
    customerData := sampleCustomer,
    status := SaleStatus.IN_PROGRESS,
    statusHistory :=
      [{ status := SaleStatus.IN_PROGRESS, updatedBy := "Ana Vendedora",
         updatedAt := "t0", reason := none },
       { status := SaleStatus.ANALYZED, updatedBy := "Carlos Gerente",
         updatedAt := "t1", reason := none },
       { status := SaleStatus.IN_PROGRESS, updatedBy := "Carlos Gerente",
         updatedAt := "t2", reason := some "corrigir dados" }],
    createdAt := "t0", returnReason := some "corrigir dados" }

/-- Witness for C9: over two polls that both show the regressing sale,
its id alerts at most once; and with the id already seen, it stays in the
seen-set and alerts zero times. -/
theorem claim_C9_witness :
    (sessionAlerts [[c9sale], [c9sale]] []).2.count "s9" ≤ 1 ∧
    "s9" ∈ (sessionAlerts [[c9sale], [c9sale]] ["s9"]).1 ∧
    (sessionAlerts [[c9sale], [c9sale]] ["s9"]).2.count "s9" = 0 :=
  ⟨claim_C9.1 [[c9sale], [c9sale]] "s9",
   claim_C9.2.1 [[c9sale], [c9sale]] ["s9"] "s9" (by decide),
   claim_C9.2.2 [[c9sale], [c9sale]] ["s9"] "s9" (by decide)⟩
